import Mathlib

/-!
Verification of the treex `Conv` module (src/treex/nn/conv.py) and the
example training steps (src/examples/cnn.py).

The repository is a thin wrapper over external libraries (flax.linen, jax,
optax).  The external numerical functions are not part of the repository;
they appear here as explicit function parameters (`flaxApply`, `flaxInit`,
`uniform`, and the fields of `Env`), so every theorem below holds for an
arbitrary behaviour of the wrapped library — which is exactly what the
wrapper structure of the code guarantees.

Arrays (`jnp.ndarray`) are an abstract type parameter `Arr`.  Python dicts
of arrays are association lists keyed by `String`.
-/

/-- A flax initializer callable `(PRNGKey, Shape, Dtype) -> Array`; the key is
itself an array, shapes are integer lists, dtypes are names. -/
abbrev KInit (Arr : Type) := Arr → List Int → String → Arr

/-- `kernel_size : Union[int, Iterable[int]]` from the `Conv` constructor. -/
inductive KernelSize : Type where
  | int (n : Int)
  | list (l : List Int)
deriving DecidableEq, Repr

/-- `padding : Union[str, Iterable[Tuple[int, int]]]` from the `Conv`
constructor. -/
inductive Padding : Type where
  | str (s : String)
  | pairs (l : List (Int × Int))
deriving DecidableEq, Repr

/-- The configuration record of a `flax.linen.Conv` as built by
`Conv.module`: the `features` count plus the eleven remaining constructor
properties. -/
structure FlaxConv (Arr : Type) : Type where
  features : Int
  kernel_size : KernelSize
  strides : Option (List Int)
  padding : Padding
  input_dilation : Option (List Int)
  kernel_dilation : Option (List Int)
  feature_group_count : Int
  use_bias : Bool
  dtype : String
  precision : Option String
  kernel_init : KInit Arr
  bias_init : KInit Arr

/-- The variable dictionary returned by `flax_module.init`: an outer dict
(collections, e.g. "params") of inner dicts of arrays. -/
abbrev FlaxVars (Arr : Type) := List (String × List (String × Arr))

/-- The variable dictionary passed to `flax_module.apply` by
`Conv.__call__`: values may be Python `None` (hence `Option Arr`). -/
abbrev ApplyVars (Arr : Type) := List (String × List (String × Option Arr))

/-- `variables[s1][s2]`: nested dict lookup; `none` models a Python
`KeyError`. -/
def lookup2 {Arr : Type} (v : FlaxVars Arr) (s1 s2 : String) : Option Arr :=
  (List.lookup s1 v).bind (fun inner => List.lookup s2 inner)

/-- The `treex.nn.conv.Conv` module: two pytree leaf fields (`kernel` and
`bias`, both declared via `types.Parameter.field()`) and thirteen static
properties, plus the `initialized` flag inherited from the base `Module`
class (named `inited` here; the base class is not under src/ and is
modelled from the spec as a flag set by `.init`). -/
structure Conv (Arr : Type) : Type where
  -- pytree (types.Parameter.field())
  kernel : Option Arr
  bias : Option Arr
  -- props
  features_in : Int
  features_out : Int
  kernel_size : KernelSize
  strides : Option (List Int)
  padding : Padding
  input_dilation : Option (List Int)
  kernel_dilation : Option (List Int)
  feature_group_count : Int
  use_bias : Bool
  dtype : String
  precision : Option String
  kernel_init : KInit Arr
  bias_init : KInit Arr
  -- Modelled from the spec: base-Module state, self.initialized
  inited : Bool

/-- `Conv.__init__`: stores the thirteen constructor arguments and sets
`self.kernel = None` and `self.bias = None`; the base `Module.__init__`
leaves the module uninitialized. -/
def Conv.construct {Arr : Type} (features_in features_out : Int)
    (kernel_size : KernelSize) (strides : Option (List Int))
    (padding : Padding) (input_dilation kernel_dilation : Option (List Int))
    (feature_group_count : Int) (use_bias : Bool) (dtype : String)
    (precision : Option String) (kernel_init bias_init : KInit Arr) :
    Conv Arr :=
  { kernel := none
    bias := none
    features_in := features_in
    features_out := features_out
    kernel_size := kernel_size
    strides := strides
    padding := padding
    input_dilation := input_dilation
    kernel_dilation := kernel_dilation
    feature_group_count := feature_group_count
    use_bias := use_bias
    dtype := dtype
    precision := precision
    kernel_init := kernel_init
    bias_init := bias_init
    inited := false }

/-- The `Conv.module` property: builds a `flax.linen.Conv` with
`features=self.features_out` and the remaining eleven properties passed
through. -/
def Conv.module {Arr : Type} (c : Conv Arr) : FlaxConv Arr :=
  { features := c.features_out
    kernel_size := c.kernel_size
    strides := c.strides
    padding := c.padding
    input_dilation := c.input_dilation
    kernel_dilation := c.kernel_dilation
    feature_group_count := c.feature_group_count
    use_bias := c.use_bias
    dtype := c.dtype
    precision := c.precision
    kernel_init := c.kernel_init
    bias_init := c.bias_init }

/-- `ndim` as computed in `Conv.module_init`: 1 for an integer kernel size,
`len(list(kernel_size))` otherwise. -/
def KernelSize.ndim : KernelSize → Nat
  | .int _ => 1
  | .list l => l.length

/-- `mindim` as computed in `Conv.module_init`: the kernel size itself when
an integer, `min(kernel_size)` otherwise; `none` models the `ValueError`
Python's `min` raises on an empty iterable. -/
def KernelSize.mindim : KernelSize → Option Int
  | .int n => some n
  | .list [] => none
  | .list (a :: as) => some (as.foldl min a)

/-- `list(range(start, start + len))` over integers. -/
def intRange (start : Int) (len : Nat) : List Int :=
  List.map (fun i : Nat => start + (i : Int)) (List.range len)

/-- The dummy-input shape built in `Conv.module_init`:
`mindim *= 2; shape = list(range(mindim, mindim + ndim + 1));
shape[-1] = self.features_in`. -/
def Conv.dummyShape (ks : KernelSize) (features_in : Int) :
    Option (List Int) :=
  match ks.mindim with
  | none => none
  | some m =>
      let mindim := m * 2
      let shape := intRange mindim (ks.ndim + 1)
      some (shape.dropLast ++ [features_in])

/-- `Conv.module_init`: draws a uniform dummy input of the computed shape,
runs the wrapped flax module's `init`, and extracts
`variables["params"]["kernel"]` (and `["bias"]` when `use_bias`).
`flaxInit` and `uniform` stand for the external `flax` `init` and
`jax.random.uniform`; `none` models a raised Python exception. -/
def Conv.module_init {Arr : Type}
    (flaxInit : FlaxConv Arr → Arr → Arr → FlaxVars Arr)
    (uniform : Arr → List Int → Arr)
    (c : Conv Arr) (key : Arr) : Option (Conv Arr) :=
  match Conv.dummyShape (Conv.module c).kernel_size c.features_in with
  | none => none
  | some shape =>
      let x := uniform key shape
      let vars := flaxInit (Conv.module c) key x
      match lookup2 vars "params" "kernel" with
      | none => none
      | some k =>
          let c1 : Conv Arr := { c with kernel := some k }
          if c.use_bias then
            match lookup2 vars "params" "bias" with
            | none => none
            | some b => some { c1 with bias := some b }
          else
            some c1

/-- Modelled from the spec: `Module.init` of the base `Module` class
(treex/module.py, not under src/) "mutates" the tree functionally — it runs
the module's `module_init` with the key and marks the module as
initialized. -/
def Conv.init {Arr : Type}
    (flaxInit : FlaxConv Arr → Arr → Arr → FlaxVars Arr)
    (uniform : Arr → List Int → Arr)
    (c : Conv Arr) (key : Arr) : Option (Conv Arr) :=
  (Conv.module_init flaxInit uniform c key).map
    (fun c' => { c' with inited := true })

/-- `Conv.__call__`: asserts `self.initialized` (message
"Module not initialized"; the failure is `none`), builds
`params = dict(kernel=self.kernel)` adding `bias` exactly when `use_bias`,
and returns `self.module.apply(dict(params=params), x)`.  `flaxApply`
stands for the external `flax` `apply`.  The post-state of the module is
returned alongside the output to make the frame property explicit: the
method body assigns to no field of `self`. -/
def Conv.call {Arr : Type}
    (flaxApply : FlaxConv Arr → ApplyVars Arr → Arr → Arr)
    (c : Conv Arr) (x : Arr) : Option (Arr × Conv Arr) :=
  if c.inited then
    let params : List (String × Option Arr) :=
      [("kernel", c.kernel)] ++ (if c.use_bias then [("bias", c.bias)] else [])
    some (flaxApply (Conv.module c) [("params", params)] x, c)
  else
    none

/-- The modules producible by the repository's API: a freshly constructed
`Conv`, or the result of a successful `.init`. -/
inductive Conv.Reachable {Arr : Type}
    (flaxInit : FlaxConv Arr → Arr → Arr → FlaxVars Arr)
    (uniform : Arr → List Int → Arr) : Conv Arr → Prop where
  | constructed (features_in features_out : Int) (kernel_size : KernelSize)
      (strides : Option (List Int)) (padding : Padding)
      (input_dilation kernel_dilation : Option (List Int))
      (feature_group_count : Int) (use_bias : Bool) (dtype : String)
      (precision : Option String) (kernel_init bias_init : KInit Arr) :
      Conv.Reachable flaxInit uniform
        (Conv.construct features_in features_out kernel_size strides padding
          input_dilation kernel_dilation feature_group_count use_bias dtype
          precision kernel_init bias_init)
  | stepInit (c c' : Conv Arr) (key : Arr) :
      Conv.Reachable flaxInit uniform c →
      Conv.init flaxInit uniform c key = some c' →
      Conv.Reachable flaxInit uniform c'

/-! ## The module/parameter-tree abstraction used by src/examples/cnn.py

The base `Module` machinery (`.filter`, `.update`, the `Optimizer` wrapper,
`Sequential`) lives in treex files that are not under src/; the definitions
below are modelled from the spec: modules are immutable trees with typed
leaves (parameters, batch statistics, random-number state), `.filter`
selects the subtree of leaves of one type (replacing the other leaves by a
`Nothing` placeholder), and `.update` merges a selection back, taking the
other tree's leaf wherever it is not `Nothing`. -/

/-- The leaf types of the tree: `tx.Parameter`, batch statistics, RNG
state. -/
inductive LeafKind : Type where
  | parameter
  | batchStat
  | rngState
deriving DecidableEq, Repr

/-- Modelled from the spec: a treex module as an immutable pytree with
typed leaves.  A tree is a leaf (whose `none` value models both an unset
field and the `Nothing` placeholder left by `.filter`) or a finite
sequence of subtrees, encoded head/tail by `cons`/`nil`. -/
inductive PyTree (Arr : Type) : Type where
  | leaf (kind : LeafKind) (value : Option Arr) : PyTree Arr
  | nil : PyTree Arr
  | cons (child rest : PyTree Arr) : PyTree Arr
deriving Repr

/-- Modelled from the spec: `Module.filter(tx.Parameter)` selects the
subtree of leaves of the given kind; every other leaf becomes the
`Nothing` placeholder.  The tree structure is preserved. -/
def PyTree.filter {Arr : Type} (k : LeafKind) : PyTree Arr → PyTree Arr
  | .leaf k' v => .leaf k' (if k' = k then v else none)
  | .nil => .nil
  | .cons c r => .cons (PyTree.filter k c) (PyTree.filter k r)

/-- Modelled from the spec: `Module.update(other)` merges `other` into the
module, taking `other`'s leaf wherever it is not the `Nothing`
placeholder and keeping the module's own leaf otherwise.  The two trees
share their structure in every use in the repository; on a structure
mismatch treex raises, and the first tree is returned here (the theorems
below never reach that case). -/
def PyTree.update {Arr : Type} : PyTree Arr → PyTree Arr → PyTree Arr
  | .leaf k v, .leaf _ w =>
      .leaf k (match w with | none => v | some w' => some w')
  | .cons c r, .cons c' r' => .cons (PyTree.update c c') (PyTree.update r r')
  | t, _ => t

/-- The external jax/optax/flax functions used by src/examples/cnn.py, as
abstract parameters: the forward application of the `Sequential` model,
`optax.softmax_cross_entropy`, `jnp.mean`, `jax.nn.one_hot`,
`y_pred.argmax(axis=1) == y`, and the gradient that
`jax.value_and_grad(loss_fn, has_aux=True)` computes with respect to its
first argument. -/
structure Env (Arr : Type) : Type where
  applyModel : PyTree Arr → Arr → Arr
  softmaxCE : Arr → Arr → Arr
  meanOf : Arr → Arr
  oneHot : Arr → Nat → Arr
  accOf : Arr → Arr → Arr
  gradOf : PyTree Arr → PyTree Arr → Arr → Arr → PyTree Arr

/-- Modelled from the spec: the `tx.Optimizer` wrapper around an optax
gradient transformation.  `step` consumes the optimizer state, the
gradients and the parameters and yields updated parameters and a new
state. -/
structure Optimizer (Arr S : Type) : Type where
  state : S
  step : S → PyTree Arr → PyTree Arr → PyTree Arr × S

/-- Modelled from the spec: `Optimizer.apply_updates(grads, params)`
returns the updated parameters and threads the new optimizer state. -/
def Optimizer.apply_updates {Arr S : Type} (o : Optimizer Arr S)
    (grads params : PyTree Arr) : PyTree Arr × Optimizer Arr S :=
  let (p, s) := o.step o.state grads params
  (p, { o with state := s })

/-- `loss_fn` from src/examples/cnn.py: updates the model with `params`,
runs the forward pass, and returns the mean softmax cross-entropy against
the one-hot labels together with the updated model and the per-example
accuracy. -/
def loss_fn {Arr : Type} (env : Env Arr) (params model : PyTree Arr)
    (x y : Arr) : Arr × (PyTree Arr × Arr) :=
  let model := model.update params
  let y_pred := env.applyModel model x
  let loss := env.meanOf (env.softmaxCE y_pred (env.oneHot y 10))
  let acc_batch := env.accOf y_pred y
  (loss, (model, acc_batch))

/-- `jax.value_and_grad(loss_fn, has_aux=True)` applied as in
`train_step`: the value part is `loss_fn` itself and the gradient is taken
with respect to the first argument (`params`); the gradient computation is
the external `env.gradOf`. -/
def value_and_grad_loss {Arr : Type} (env : Env Arr)
    (params model : PyTree Arr) (x y : Arr) :
    (Arr × (PyTree Arr × Arr)) × PyTree Arr :=
  (loss_fn env params model x y, env.gradOf params model x y)

/-- `train_step` from src/examples/cnn.py. -/
def train_step {Arr S : Type} (env : Env Arr) (model : PyTree Arr)
    (optimizer : Optimizer Arr S) (x y : Arr) :
    Arr × PyTree Arr × Optimizer Arr S × Arr :=
  let params := model.filter LeafKind.parameter
  let vg := value_and_grad_loss env params model x y
  let loss := vg.1.1
  let model := vg.1.2.1
  let acc_batch := vg.1.2.2
  let grads := vg.2
  let pOpt := optimizer.apply_updates grads params
  let params := pOpt.1
  let optimizer := pOpt.2
  let model := model.update params
  (loss, model, optimizer, acc_batch)

/-- `test_step` from src/examples/cnn.py: calls `loss_fn` with the model
itself passed as both the `params` and the `model` arguments. -/
def test_step {Arr : Type} (env : Env Arr) (model : PyTree Arr)
    (x y : Arr) : Arr × Arr :=
  let r := loss_fn env model model x y
  (r.1, r.2.2)

/-! ## Spec-side definitions and concrete sample values -/

/-- Written from the spec's words (claim C1): the `flax.linen.Conv` built
from the `Conv`'s stored properties, with `features = features_out` and
the other eleven properties passed through unchanged. -/
def specFlaxConv {Arr : Type} (c : Conv Arr) : FlaxConv Arr :=
  { features := c.features_out
    kernel_size := c.kernel_size
    strides := c.strides
    padding := c.padding
    input_dilation := c.input_dilation
    kernel_dilation := c.kernel_dilation
    feature_group_count := c.feature_group_count
    use_bias := c.use_bias
    dtype := c.dtype
    precision := c.precision
    kernel_init := c.kernel_init
    bias_init := c.bias_init }

/-- Written from the spec's words (claim C1): the parameter dictionary
containing `kernel = c.kernel`, plus `bias = c.bias` exactly when
`c.use_bias` is true. -/
def specParams {Arr : Type} (c : Conv Arr) : List (String × Option Arr) :=
  if c.use_bias then
    [("kernel", c.kernel), ("bias", c.bias)]
  else
    [("kernel", c.kernel)]

/-- The leaf/static classification of `Conv`'s declared fields, read off
the class body of src/treex/nn/conv.py (the `# pytree` fields are declared
with `types.Parameter.field()`, the `# props` fields are plain
annotated attributes). -/
inductive FieldKind : Type where
  | parameterLeaf
  | staticProp
deriving DecidableEq, BEq, Repr

/-- The declared fields of `Conv` in source order with their
classification. -/
def Conv.fieldKinds : List (String × FieldKind) :=
  [("kernel", FieldKind.parameterLeaf),
   ("bias", FieldKind.parameterLeaf),
   ("features_in", FieldKind.staticProp),
   ("features_out", FieldKind.staticProp),
   ("kernel_size", FieldKind.staticProp),
   ("strides", FieldKind.staticProp),
   ("padding", FieldKind.staticProp),
   ("input_dilation", FieldKind.staticProp),
   ("kernel_dilation", FieldKind.staticProp),
   ("feature_group_count", FieldKind.staticProp),
   ("use_bias", FieldKind.staticProp),
   ("dtype", FieldKind.staticProp),
   ("precision", FieldKind.staticProp),
   ("kernel_init", FieldKind.staticProp),
   ("bias_init", FieldKind.staticProp)]

/-- A concrete initializer for witness instantiations. -/
def sampleKInit : KInit Nat := fun _ _ _ => 0

/-- A concrete `jax.random.uniform` for witness instantiations. -/
def sampleUniform : Nat → List Int → Nat := fun _ _ => 0

/-- A concrete flax `init` for witness instantiations. -/
def sampleFlaxInit : FlaxConv Nat → Nat → Nat → FlaxVars Nat :=
  fun _ _ _ => [("params", [("kernel", (5 : Nat)), ("bias", (6 : Nat))])]

/-- A concrete flax `apply` for witness instantiations. -/
def sampleApply : FlaxConv Nat → ApplyVars Nat → Nat → Nat :=
  fun _ _ _ => 7

/-- A freshly constructed concrete `Conv` for witness instantiations. -/
def sampleConvFresh : Conv Nat :=
  Conv.construct 1 1 (KernelSize.int 3) none (Padding.str "SAME") none none
    1 true "float32" none sampleKInit sampleKInit

/-- An initialized concrete `Conv` for witness instantiations. -/
def sampleConvInited : Conv Nat :=
  { sampleConvFresh with kernel := some 5, bias := some 6, inited := true }

/-- A concrete environment of external functions for witness
instantiations. -/
def sampleEnv : Env Nat :=
  { applyModel := fun _ x => x
    softmaxCE := fun a _ => a
    meanOf := fun a => a
    oneHot := fun a _ => a
    accOf := fun a _ => a
    gradOf := fun _ _ _ _ => PyTree.nil }

/-- A concrete optimizer for witness instantiations. -/
def sampleOpt : Optimizer Nat Nat :=
  { state := 0, step := fun s _ p => (p, s) }

/-! ## Helper lemmas -/

/-- A successful `module_init` decomposes as: the dummy shape existed, the
kernel lookup succeeded, and the result is the input with `kernel` (and,
when `use_bias`, also `bias`) overwritten. -/
theorem module_init_cases {Arr : Type}
    (fi : FlaxConv Arr → Arr → Arr → FlaxVars Arr)
    (u : Arr → List Int → Arr) (c c' : Conv Arr) (key : Arr)
    (h : Conv.module_init fi u c key = some c') :
    ∃ shape, Conv.dummyShape (Conv.module c).kernel_size c.features_in = some shape ∧
      ∃ k, lookup2 (fi (Conv.module c) key (u key shape)) "params" "kernel" = some k ∧
        ((c.use_bias = false ∧ c' = { c with kernel := some k }) ∨
         (c.use_bias = true ∧ ∃ b,
            lookup2 (fi (Conv.module c) key (u key shape)) "params" "bias" = some b ∧
            c' = { c with kernel := some k, bias := some b })) := by
  rw [Conv.module_init] at h
  cases hds : Conv.dummyShape (Conv.module c).kernel_size c.features_in with
  | none => rw [hds] at h; cases h
  | some shape =>
    rw [hds] at h
    refine ⟨shape, rfl, ?_⟩
    cases hk : lookup2 (fi (Conv.module c) key (u key shape)) "params" "kernel" with
    | none => simp only [hk] at h; cases h
    | some k =>
      simp only [hk] at h
      refine ⟨k, rfl, ?_⟩
      cases hb : c.use_bias with
      | false =>
        simp only [hb, Bool.false_eq_true, if_false] at h
        exact Or.inl ⟨rfl, by injection h with h'; exact h'.symm⟩
      | true =>
        simp only [hb, if_true] at h
        cases hbk : lookup2 (fi (Conv.module c) key (u key shape)) "params" "bias" with
        | none => simp only [hbk] at h; cases h
        | some b =>
          simp only [hbk] at h
          exact Or.inr ⟨rfl, b, rfl, by injection h with h'; exact h'.symm⟩

/-- A successful `module_init` always sets the kernel. -/
theorem module_init_kernel_isSome {Arr : Type}
    (fi : FlaxConv Arr → Arr → Arr → FlaxVars Arr)
    (u : Arr → List Int → Arr) (c c' : Conv Arr) (key : Arr)
    (h : Conv.module_init fi u c key = some c') : c'.kernel.isSome := by
  obtain ⟨shape, -, k, -, hcase⟩ := module_init_cases fi u c c' key h
  cases hcase with
  | inl hc => rw [hc.2]; rfl
  | inr hc => rw [hc.2.choose_spec.2]; rfl

/-- Along the repository's API, an initialized module has its kernel set. -/
theorem reachable_inited_kernel {Arr : Type}
    (fi : FlaxConv Arr → Arr → Arr → FlaxVars Arr)
    (u : Arr → List Int → Arr) (c : Conv Arr)
    (h : Conv.Reachable fi u c) (hi : c.inited = true) : c.kernel.isSome := by
  induction h with
  | constructed => simp [Conv.construct] at hi
  | stepInit c0 c' key hr heq ih =>
    rw [Conv.init] at heq
    cases hmi : Conv.module_init fi u c0 key with
    | none => rw [hmi] at heq; cases heq
    | some d =>
      rw [hmi] at heq
      injection heq with heq
      rw [← heq]
      exact module_init_kernel_isSome fi u c0 d key hmi

/-- `update` with the `Parameter`-filtered copy of a tree restores the
tree. -/
theorem pytree_update_filter {Arr : Type} (t : PyTree Arr) :
    PyTree.update t (PyTree.filter LeafKind.parameter t) = t := by
  induction t with
  | leaf k v => cases v <;> cases k <;> simp [PyTree.filter, PyTree.update]
  | nil => rfl
  | cons c r ihc ihr => simp [PyTree.filter, PyTree.update, ihc, ihr]

/-- `update` with the tree itself is the identity. -/
theorem pytree_update_self {Arr : Type} (t : PyTree Arr) :
    PyTree.update t t = t := by
  induction t with
  | leaf k v => cases v <;> simp [PyTree.update]
  | nil => rfl
  | cons c r ihc ihr => simp [PyTree.update, ihc, ihr]

/-! ## Claim theorems -/

/-- C1: Delegation to the wrapped library — for every initialized `Conv`
`c` and input `x`, `c(x)` returns exactly the output of the
`flax.linen.Conv` built from `c`'s stored properties (with
`features = c.features_out` and the other eleven properties passed through
unchanged) applied to `x` with the parameter dictionary containing
`kernel = c.kernel` plus `bias = c.bias` exactly when `c.use_bias`;
`Conv` performs no convolution arithmetic of its own (the theorem holds for
an arbitrary `flaxApply`). -/
theorem conv_call_delegates {Arr : Type}
    (flaxApply : FlaxConv Arr → ApplyVars Arr → Arr → Arr)
    (c : Conv Arr) (x out : Arr) (c' : Conv Arr)
    (h : Conv.call flaxApply c x = some (out, c')) :
    out = flaxApply (specFlaxConv c) [("params", specParams c)] x := by
  rw [Conv.call] at h
  by_cases hi : c.inited
  · rw [if_pos hi] at h
    injection h with h'
    have hout : out = flaxApply (Conv.module c)
        [("params", [("kernel", c.kernel)] ++
          (if c.use_bias then [("bias", c.bias)] else []))] x :=
      (congrArg Prod.fst h').symm
    rw [hout]
    have hmod : Conv.module c = specFlaxConv c := rfl
    rw [hmod]
    by_cases hb : c.use_bias <;> simp [specParams, hb]
  · rw [if_neg hi] at h; cases h

/-- Witness for C1 at a concrete initialized module and input. -/
theorem conv_call_delegates_witness :
    Conv.call sampleApply sampleConvInited 0 = some (7, sampleConvInited) ∧
    (7 : Nat) = sampleApply (specFlaxConv sampleConvInited)
      [("params", specParams sampleConvInited)] 0 :=
  ⟨rfl, conv_call_delegates sampleApply sampleConvInited 0 7 sampleConvInited rfl⟩

/-- C4: Purity of application — `Conv.__call__` leaves every field of the
module unchanged (kernel, bias, and all thirteen stored constructor
properties), so applying the module is a pure function of the pair
(module state, input). -/
theorem conv_call_frame {Arr : Type}
    (flaxApply : FlaxConv Arr → ApplyVars Arr → Arr → Arr)
    (c : Conv Arr) (x out : Arr) (c' : Conv Arr)
    (h : Conv.call flaxApply c x = some (out, c')) :
    c' = c ∧ c'.kernel = c.kernel ∧ c'.bias = c.bias ∧
    c'.features_in = c.features_in ∧ c'.features_out = c.features_out ∧
    c'.kernel_size = c.kernel_size ∧ c'.strides = c.strides ∧
    c'.padding = c.padding ∧ c'.input_dilation = c.input_dilation ∧
    c'.kernel_dilation = c.kernel_dilation ∧
    c'.feature_group_count = c.feature_group_count ∧
    c'.use_bias = c.use_bias ∧ c'.dtype = c.dtype ∧
    c'.precision = c.precision ∧ c'.kernel_init = c.kernel_init ∧
    c'.bias_init = c.bias_init := by
  have hc : c' = c := by
    rw [Conv.call] at h
    by_cases hi : c.inited
    · rw [if_pos hi] at h
      injection h with h'
      have h2 : c = c' := congrArg Prod.snd h'
      exact h2.symm
    · rw [if_neg hi] at h; cases h
  subst hc
  exact ⟨rfl, rfl, rfl, rfl, rfl, rfl, rfl, rfl, rfl, rfl, rfl, rfl, rfl,
    rfl, rfl, rfl⟩

/-- Witness for C4 at a concrete initialized module and input. -/
theorem conv_call_frame_witness :
    Conv.call sampleApply sampleConvInited 0 = some (7, sampleConvInited) ∧
    sampleConvInited = sampleConvInited :=
  ⟨rfl, (conv_call_frame sampleApply sampleConvInited 0 7 sampleConvInited rfl).1⟩

/-- C7: Uninitialized-call safety — `Conv.__call__` asserts
`self.initialized` ("Module not initialized").  Along the repository's API
(`__init__` followed by optional `.init`), a module whose kernel is still
`None` has not been initialized and the call fails the assertion before any
computation; when the module is initialized the assertion branch is
unreachable and the call returns a value. -/
theorem conv_uninit_call_fails {Arr : Type}
    (fi : FlaxConv Arr → Arr → Arr → FlaxVars Arr)
    (u : Arr → List Int → Arr)
    (fa : FlaxConv Arr → ApplyVars Arr → Arr → Arr)
    (c : Conv Arr) (h : Conv.Reachable fi u c) :
    (c.kernel = none → ∀ x, Conv.call fa c x = none) ∧
    (c.inited = true → ∀ x, ∃ out, Conv.call fa c x = some (out, c)) := by
  constructor
  · intro hk x
    rw [Conv.call]
    cases hi : c.inited with
    | false => simp
    | true =>
      exact absurd (reachable_inited_kernel fi u c h hi)
        (by rw [hk]; simp)
  · intro hi x
    rw [Conv.call]
    rw [hi]
    refine ⟨_, rfl⟩

/-- Witness for C7 at a concrete freshly constructed (never initialized)
module. -/
theorem conv_uninit_call_fails_witness :
    sampleConvFresh.kernel = none ∧
    Conv.call sampleApply sampleConvFresh 0 = none :=
  ⟨rfl,
    (conv_uninit_call_fails sampleFlaxInit sampleUniform sampleApply
        sampleConvFresh
        (Conv.Reachable.constructed 1 1 (KernelSize.int 3) none
          (Padding.str "SAME") none none 1 true "float32" none sampleKInit
          sampleKInit)).1 rfl 0⟩

/-- C9: Bias noninterference — for an initialized `Conv` with
`use_bias = false`, the output of `__call__` does not depend on the `bias`
field: two modules identical except in `bias` produce identical outputs on
every input, because `bias` is put into the parameter dictionary only when
`use_bias` is true. -/
theorem conv_call_bias_noninterference {Arr : Type}
    (flaxApply : FlaxConv Arr → ApplyVars Arr → Arr → Arr)
    (c : Conv Arr) (b : Option Arr) (x : Arr)
    (h : c.use_bias = false) :
    (Conv.call flaxApply { c with bias := b } x).map Prod.fst =
      (Conv.call flaxApply c x).map Prod.fst := by
  rw [Conv.call, Conv.call]
  have h1 : ({ c with bias := b } : Conv Arr).inited = c.inited := rfl
  have h2 : ({ c with bias := b } : Conv Arr).use_bias = c.use_bias := rfl
  have h3 : ({ c with bias := b } : Conv Arr).kernel = c.kernel := rfl
  have h4 : Conv.module ({ c with bias := b } : Conv Arr) = Conv.module c := rfl
  rw [h1, h2, h3, h4, h]
  cases c.inited <;> simp

/-- Witness for C9 at a concrete module with `use_bias = false` and a
changed bias. -/
theorem conv_call_bias_noninterference_witness :
    ({ sampleConvInited with use_bias := false } : Conv Nat).use_bias = false ∧
    (Conv.call sampleApply
        { { sampleConvInited with use_bias := false } with bias := some 9 }
        0).map Prod.fst =
      (Conv.call sampleApply { sampleConvInited with use_bias := false }
        0).map Prod.fst :=
  ⟨rfl,
    conv_call_bias_noninterference sampleApply
      { sampleConvInited with use_bias := false } (some 9) 0 rfl⟩

/-- C5: Typed-leaf invariant — `Conv`'s learnable state is exactly the two
pytree leaf fields `kernel` and `bias`, declared with
`types.Parameter.field()`; the thirteen other constructor arguments are
stored as static properties; and no operation of the module moves state
between the two kinds: `module_init` rewrites only the leaf fields (all
thirteen properties are unchanged, as is the initialization flag) and
`__call__` changes nothing. -/
theorem conv_typed_leaf_invariant {Arr : Type}
    (fi : FlaxConv Arr → Arr → Arr → FlaxVars Arr)
    (u : Arr → List Int → Arr)
    (fa : FlaxConv Arr → ApplyVars Arr → Arr → Arr)
    (c c' d : Conv Arr) (key x out : Arr)
    (hinit : Conv.module_init fi u c key = some c')
    (hcall : Conv.call fa c x = some (out, d)) :
    ((Conv.fieldKinds.filter (fun p => p.2 == FieldKind.parameterLeaf)).map
        Prod.fst = ["kernel", "bias"]) ∧
    ((Conv.fieldKinds.filter (fun p => p.2 == FieldKind.staticProp)).map
        Prod.fst =
      ["features_in", "features_out", "kernel_size", "strides", "padding",
       "input_dilation", "kernel_dilation", "feature_group_count",
       "use_bias", "dtype", "precision", "kernel_init", "bias_init"]) ∧
    (c'.features_in = c.features_in ∧ c'.features_out = c.features_out ∧
     c'.kernel_size = c.kernel_size ∧ c'.strides = c.strides ∧
     c'.padding = c.padding ∧ c'.input_dilation = c.input_dilation ∧
     c'.kernel_dilation = c.kernel_dilation ∧
     c'.feature_group_count = c.feature_group_count ∧
     c'.use_bias = c.use_bias ∧ c'.dtype = c.dtype ∧
     c'.precision = c.precision ∧ c'.kernel_init = c.kernel_init ∧
     c'.bias_init = c.bias_init ∧ c'.inited = c.inited) ∧
    d = c := by
  refine ⟨by rfl, by rfl, ?_, ?_⟩
  · obtain ⟨shape, -, k, -, hcase⟩ := module_init_cases fi u c c' key hinit
    cases hcase with
    | inl hc =>
      rw [hc.2]
      exact ⟨rfl, rfl, rfl, rfl, rfl, rfl, rfl, rfl, rfl, rfl, rfl, rfl,
        rfl, rfl⟩
    | inr hc =>
      obtain ⟨b, -, hc2⟩ := hc.2
      rw [hc2]
      exact ⟨rfl, rfl, rfl, rfl, rfl, rfl, rfl, rfl, rfl, rfl, rfl, rfl,
        rfl, rfl⟩
  · rw [Conv.call] at hcall
    by_cases hi : c.inited
    · rw [if_pos hi] at hcall
      injection hcall with h'
      have h2 : c = d := congrArg Prod.snd h'
      exact h2.symm
    · rw [if_neg hi] at hcall; cases hcall

/-- Witness for C5 at a concrete module on which both `module_init` and
`__call__` succeed. -/
theorem conv_typed_leaf_invariant_witness :
    Conv.module_init sampleFlaxInit sampleUniform sampleConvInited 0 =
      some sampleConvInited ∧
    Conv.call sampleApply sampleConvInited 0 = some (7, sampleConvInited) ∧
    sampleConvInited = sampleConvInited :=
  ⟨rfl, rfl,
    (conv_typed_leaf_invariant sampleFlaxInit sampleUniform sampleApply
        sampleConvInited sampleConvInited sampleConvInited 0 0 7 rfl
        rfl).2.2.2⟩

/-- C6: Initialization postcondition — after `__init__` both `kernel` and
`bias` are `None`; after a successful `module_init(key)`, `kernel` holds
exactly the kernel produced by the wrapped flax module's `init` on the
generated dummy input, and `bias` is set if and only if `use_bias` is true
(when `use_bias` is false, `bias` remains `None`). -/
theorem conv_init_postcondition {Arr : Type}
    (fi : FlaxConv Arr → Arr → Arr → FlaxVars Arr)
    (u : Arr → List Int → Arr)
    (fin fout : Int) (ks : KernelSize) (st : Option (List Int))
    (pd : Padding) (idil kdil : Option (List Int)) (fgc : Int) (ub : Bool)
    (dt : String) (pr : Option String) (ki bi : KInit Arr)
    (c c' : Conv Arr) (key : Arr) (hb : c.bias = none)
    (hmi : Conv.module_init fi u c key = some c') :
    ((Conv.construct fin fout ks st pd idil kdil fgc ub dt pr ki bi :
        Conv Arr).kernel = none ∧
     (Conv.construct fin fout ks st pd idil kdil fgc ub dt pr ki bi :
        Conv Arr).bias = none) ∧
    (∃ shape,
      Conv.dummyShape (Conv.module c).kernel_size c.features_in =
        some shape ∧
      c'.kernel =
        lookup2 (fi (Conv.module c) key (u key shape)) "params" "kernel") ∧
    c'.bias.isSome = c.use_bias := by
  refine ⟨⟨rfl, rfl⟩, ?_⟩
  obtain ⟨shape, hds, k, hk, hcase⟩ := module_init_cases fi u c c' key hmi
  cases hcase with
  | inl hc =>
    refine ⟨⟨shape, hds, by rw [hc.2, hk]⟩, ?_⟩
    rw [hc.2, hc.1]
    show c.bias.isSome = false
    rw [hb]
    rfl
  | inr hc =>
    obtain ⟨b, hbk, hc2⟩ := hc.2
    exact ⟨⟨shape, hds, by rw [hc2, hk]⟩, by rw [hc2, hc.1]; rfl⟩

/-- Witness for C6 at a concrete fresh module whose `module_init`
succeeds. -/
theorem conv_init_postcondition_witness :
    sampleConvFresh.bias = none ∧
    Conv.module_init sampleFlaxInit sampleUniform sampleConvFresh 0 =
      some { sampleConvFresh with kernel := some 5, bias := some 6 } ∧
    ({ sampleConvFresh with kernel := some 5, bias := some 6 } :
      Conv Nat).bias.isSome = sampleConvFresh.use_bias :=
  ⟨rfl, rfl,
    (conv_init_postcondition sampleFlaxInit sampleUniform 1 1
        (KernelSize.int 3) none (Padding.str "SAME") none none 1 true
        "float32" none sampleKInit sampleKInit sampleConvFresh
        { sampleConvFresh with kernel := some 5, bias := some 6 } 0 rfl
        rfl).2.2⟩

/-- C8: Dummy-input shape — when `mindim` is defined (kernel size an
integer, or a nonempty sequence with minimum `m`), the initialization
input's shape is the consecutive integers `2*m, 2*m+1, ...` over the first
`ndim` axes followed by `features_in` on the last axis, so its rank is
`ndim + 1`: one axis fewer than the `(batch, spatial_dims..., features)`
layout `__call__` documents (`ndim + 2` axes). -/
theorem dummy_shape_characterization (ks : KernelSize) (fin m : Int)
    (h : ks.mindim = some m) :
    Conv.dummyShape ks fin =
      some (List.map (fun i : Nat => m * 2 + (i : Int))
        (List.range ks.ndim) ++ [fin]) ∧
    ∀ s, Conv.dummyShape ks fin = some s →
      s.length = ks.ndim + 1 ∧ s.length + 1 = ks.ndim + 2 := by
  have hmain : Conv.dummyShape ks fin =
      some (List.map (fun i : Nat => m * 2 + (i : Int))
        (List.range ks.ndim) ++ [fin]) := by
    have hr : intRange (m * 2) (ks.ndim + 1) =
        (List.map (fun i : Nat => m * 2 + (i : Int))
          (List.range ks.ndim)).concat (m * 2 + (ks.ndim : Int)) := by
      rw [intRange, List.range_succ, List.map_append, List.concat_eq_append]
      simp
    simp only [Conv.dummyShape, h, hr]
    simp
  refine ⟨hmain, ?_⟩
  intro s hs
  rw [hmain] at hs
  injection hs with hs
  rw [← hs]
  constructor
  · simp
  · simp

/-- Witness for C8 at the concrete kernel size `[3, 2]` (minimum 2) and
`features_in = 4`. -/
theorem dummy_shape_characterization_witness :
    (KernelSize.list [3, 2]).mindim = some 2 ∧
    Conv.dummyShape (KernelSize.list [3, 2]) 4 =
      some (List.map (fun i : Nat => 2 * 2 + (i : Int))
        (List.range (KernelSize.list [3, 2]).ndim) ++ [4]) :=
  ⟨by decide, (dummy_shape_characterization (KernelSize.list [3, 2]) 4 2
      (by decide)).1⟩

/-- C2: Optimizer threading in `train_step` — the gradient is taken only
with respect to the subtree `model.filter(tx.Parameter)`; the returned
model is the forward pass's model updated, via `.update`, with the
parameters returned by `optimizer.apply_updates` on that gradient; the
returned loss is the forward pass's mean softmax cross-entropy; and the
returned optimizer and accuracy are the threaded optimizer state and the
per-example accuracy of the forward pass. -/
theorem train_step_threading {Arr S : Type} (env : Env Arr)
    (model : PyTree Arr) (opt : Optimizer Arr S) (x y : Arr) :
    train_step env model opt x y =
      (env.meanOf (env.softmaxCE
          (env.applyModel
            (model.update (model.filter LeafKind.parameter)) x)
          (env.oneHot y 10)),
       (model.update (model.filter LeafKind.parameter)).update
         (opt.apply_updates
           (env.gradOf (model.filter LeafKind.parameter) model x y)
           (model.filter LeafKind.parameter)).1,
       (opt.apply_updates
         (env.gradOf (model.filter LeafKind.parameter) model x y)
         (model.filter LeafKind.parameter)).2,
       env.accOf
         (env.applyModel
           (model.update (model.filter LeafKind.parameter)) x) y) := rfl

/-- C3: Filter/update round trip — for every module tree `m`,
`m.update(m.filter(tx.Parameter))` equals `m`; updating a model with its
own unmodified Parameter-filtered subtree before applying it yields the
same predictions as applying the model directly; and `test_step`, which
passes the same model as both the `params` and the `model` arguments of
`loss_fn`, therefore scores the unmodified model (`m.update m = m`). -/
theorem filter_update_roundtrip {Arr : Type} (env : Env Arr)
    (m : PyTree Arr) (x y : Arr) :
    m.update (m.filter LeafKind.parameter) = m ∧
    m.update m = m ∧
    env.applyModel (m.update (m.filter LeafKind.parameter)) x =
      env.applyModel m x ∧
    test_step env m x y =
      (env.meanOf (env.softmaxCE (env.applyModel m x) (env.oneHot y 10)),
       env.accOf (env.applyModel m x) y) := by
  have h1 := pytree_update_filter m
  have h2 := pytree_update_self m
  refine ⟨h1, h2, by rw [h1], ?_⟩
  show (let r := loss_fn env m m x y; (r.1, r.2.2)) = _
  simp only [loss_fn, h2]

/-- C10: Determinism of the jitted steps — `train_step` and `test_step`
are deterministic functions of their arguments: two runs with equal
model, optimizer, `x` and `y` produce equal outputs (loss, model,
optimizer, per-example accuracy), the purity `jax.jit` requires. -/
theorem steps_deterministic {Arr S : Type} (env : Env Arr)
    (m1 m2 : PyTree Arr) (o1 o2 : Optimizer Arr S) (x1 x2 y1 y2 : Arr)
    (hm : m1 = m2) (ho : o1 = o2) (hx : x1 = x2) (hy : y1 = y2) :
    train_step env m1 o1 x1 y1 = train_step env m2 o2 x2 y2 ∧
    test_step env m1 x1 y1 = test_step env m2 x2 y2 := by
  subst hm; subst ho; subst hx; subst hy
  exact ⟨rfl, rfl⟩

/-- Witness for C10 at concrete equal arguments. -/
theorem steps_deterministic_witness :
    (PyTree.nil : PyTree Nat) = PyTree.nil ∧ sampleOpt = sampleOpt ∧
    (0 : Nat) = 0 ∧ (1 : Nat) = 1 ∧
    (train_step sampleEnv PyTree.nil sampleOpt 0 1 =
      train_step sampleEnv PyTree.nil sampleOpt 0 1 ∧
     test_step sampleEnv PyTree.nil 0 1 =
      test_step sampleEnv PyTree.nil 0 1) :=
  ⟨rfl, rfl, rfl, rfl,
    steps_deterministic sampleEnv PyTree.nil PyTree.nil sampleOpt sampleOpt
      0 0 1 1 rfl rfl rfl rfl⟩
